import Mathlib

/-!
Shallow embedding of the music-streaming-analytics engine (scripts/analytics.ts)
and proofs of the specification claims about its three queries:
`top-songs`, `timeline`, and `payout`.

Modelling conventions:
* A JS `Date` is modelled as a canonical civil datetime in UTC: year,
  0-based month (as `getMonth()`), 1-based day, and milliseconds within the
  day.  Comparison of `Date`s (epoch-millisecond order) coincides with
  lexicographic order on these fields for canonical datetimes.
* A JS `Map` is modelled as an insertion-ordered association list:
  `set` on a present key updates in place, a new key is appended at the end.
* `Array.prototype.sort` (stable since ES2019) with comparator
  `(a, b) => b.count - a.count` is modelled by `List.insertionSort` with the
  relation `count b ≤ count a`; both are stable sorts into descending count
  order, and a stable sort by a total preorder has a unique result.
* JS `number` arithmetic on the payout path is modelled by exact rational
  arithmetic, and `toFixed(2)` by rounding to the nearest cent, ties up.
-/

namespace MusicAnalytics

/-- Civil datetime in UTC modelling a JS `Date`: `year`, 0-based `month`
(`getMonth()` convention), 1-based `day`, and `ms` milliseconds within the
day (collapsing hours, minutes, seconds and milliseconds). -/
structure Instant where
  year : Int
  month : Int
  day : Int
  ms : Int
deriving DecidableEq

/-- Strict lexicographic order on instants, modelling `<` on JS `Date`s
(epoch-millisecond comparison, restricted to canonical civil datetimes). -/
def Instant.lt (a b : Instant) : Prop :=
  a.year < b.year ∨ (a.year = b.year ∧ (a.month < b.month ∨ (a.month = b.month ∧
    (a.day < b.day ∨ (a.day = b.day ∧ a.ms < b.ms)))))

/-- Lexicographic order on instants, modelling `<=` on JS `Date`s. -/
def Instant.le (a b : Instant) : Prop :=
  a.year < b.year ∨ (a.year = b.year ∧ (a.month < b.month ∨ (a.month = b.month ∧
    (a.day < b.day ∨ (a.day = b.day ∧ a.ms ≤ b.ms)))))

instance (a b : Instant) : Decidable (a.lt b) := by
  unfold Instant.lt; infer_instance

instance (a b : Instant) : Decidable (a.le b) := by
  unfold Instant.le; infer_instance

theorem Instant.le_trans {a b c : Instant} (h1 : a.le b) (h2 : b.le c) : a.le c := by
  unfold Instant.le at *; omega

theorem Instant.not_le_of_lt {a b : Instant} (h : b.lt a) : ¬ a.le b := by
  unfold Instant.lt at h; unfold Instant.le; omega

theorem Instant.le_of_not_lt {a b : Instant} (h : ¬ a.lt b) : b.le a := by
  unfold Instant.lt at h; unfold Instant.le; omega

theorem Instant.le_refl (a : Instant) : a.le a := by
  unfold Instant.le; omega

/-- Enriched streaming event, the `EnrichedEvent` interface of the source:
`userId`, `songId`, `timestamp`, `durationMs` plus the denormalized metadata
`title`, `artist`, `releaseDate`.  Timestamps are modelled as parsed civil
instants; `durationMs` is a non-negative integer per the data-model
invariant. -/
structure Event where
  userId : String
  songId : String
  timestamp : Instant
  durationMs : Nat
  title : String
  artist : String
  releaseDate : String
deriving DecidableEq

/-- JS `String.prototype.toLowerCase` restricted to the ASCII range, as used
for the case-insensitive artist comparison. -/
def lowerStr (s : String) : String := String.mk (s.data.map Char.toLower)

/-- Gregorian leap-year rule, as implemented by the JS `Date` calendar. -/
def isLeap (y : Int) : Bool :=
  (y % 4 == 0 && y % 100 != 0) || y % 400 == 0

/-- Number of days of the 0-based month `mo` of year `y` (for `mo` in
`[0, 11]`; other values do not arise after normalization). -/
def daysInMonth (y mo : Int) : Int :=
  if mo = 1 then (if isLeap y then 29 else 28)
  else if mo = 3 ∨ mo = 5 ∨ mo = 8 ∨ mo = 10 then 30
  else 31

/-- JS `new Date(y, mo, d)` at `ms` milliseconds into the day, for the day
arguments the source uses (`d = 1`, first of the month, and `d = 0`, which JS
normalizes to the last day of the previous month).  The possibly out-of-range
0-based month is normalized by floor division. -/
def mkDate (y mo d ms : Int) : Instant :=
  let ym := y * 12 + mo
  if d = 0 then
    { year := (ym - 1) / 12, month := (ym - 1) % 12,
      day := daysInMonth ((ym - 1) / 12) ((ym - 1) % 12), ms := ms }
  else
    { year := ym / 12, month := ym % 12, day := d, ms := ms }

/-- Maximum timestamp over the whole event list, modelling
`new Date(Math.max(...events.map(e => new Date(e.timestamp).getTime())))`;
`none` models the empty spread, where `Math.max()` is `-Infinity` and the
resulting `Date` is invalid (every comparison against it is false). -/
def latestInstant : List Event → Option Instant
  | [] => none
  | e :: t => some (t.foldl (fun acc e' =>
      if acc.lt e'.timestamp then e'.timestamp else acc) e.timestamp)

/-- One step of the counting pattern `map.set(k, (map.get(k) || 0) + 1)` on
the insertion-ordered association-list model of a JS `Map`: a present key is
updated in place, a new key is appended at the end. -/
def bumpBy (k : String) : List (String × Nat) → List (String × Nat)
  | [] => [(k, 1)]
  | (k', c) :: t => if k' = k then (k', c + 1) :: t else (k', c) :: bumpBy k t

/-- Play counts grouped by `key`, in first-seen order, modelling the
`Map`-building `forEach` loops of the source. -/
def countBy (key : Event → String) (l : List Event) : List (String × Nat) :=
  l.foldl (fun m e => bumpBy (key e) m) []

/-- One step of the timeline's song-counting loop, whose `Map` values are
`{count, title}` records: `set(k, {count: cur.count + 1, title: e.title})`. -/
def bumpTitle (k ttl : String) :
    List (String × (Nat × String)) → List (String × (Nat × String))
  | [] => [(k, (1, ttl))]
  | (k', v) :: t =>
    if k' = k then (k', (v.1 + 1, ttl)) :: t else (k', v) :: bumpTitle k ttl t

/-- The timeline's per-bucket `songCounts` map: `songId ↦ (count, title)`,
in first-seen order. -/
def songCountsTitled (l : List Event) : List (String × (Nat × String)) :=
  l.foldl (fun m e => bumpTitle e.songId e.title m) []

/-- JS `Array.prototype.sort` with comparator `(a, b) => count b - count a`:
a stable sort into descending `count` order.  `List.insertionSort` with
`count b ≤ count a` is stable and sorts by the same total preorder, hence
computes the same list. -/
def sortByCountDesc (f : α → Nat) (l : List α) : List α :=
  l.insertionSort (fun a b => f b ≤ f a)

/-- Events whose timestamp lies within `[s, e]`, both bounds inclusive
(the `filteredEvents` of the `top-songs` command). -/
def filteredEvents (E : List Event) (s e : Instant) : List Event :=
  E.filter (fun ev => decide (s.le ev.timestamp) && decide (ev.timestamp.le e))

/-- The `songCounts` map of the `top-songs` command. -/
def songCounts (E : List Event) (s e : Instant) : List (String × Nat) :=
  countBy Event.songId (filteredEvents E s e)

/-- Song/count pairs sorted by descending play count (`.sort((a, b) => b[1] - a[1])`). -/
def rankedSongs (E : List Event) (s e : Instant) : List (String × Nat) :=
  sortByCountDesc Prod.snd (songCounts E s e)

/-- JS `Array.prototype.slice(0, n)`: the first `n` elements for `n ≥ 0`,
and all but the last `-n` elements for negative `n` (JS clamps `len + n`
below at `0`). -/
def jsSlice (l : List α) (n : Int) : List α :=
  if 0 ≤ n then l.take n.toNat else l.take (l.length - (-n).toNat)

/-- The `top-songs` query: filter to the date range, count per song, sort by
descending count, `slice(0, n)`, and project the song ids. -/
def topSongs (E : List Event) (s e : Instant) (n : Int) : List String :=
  (jsSlice (rankedSongs E s e) n).map Prod.fst

/-- The payout window start, `new Date(latest.getFullYear(), latest.getMonth() - months + 1, 1)`. -/
def windowStartOf (ref : Instant) (months : Int) : Instant :=
  mkDate ref.year (ref.month - months + 1) 1 0

/-- The filter predicate of the `payout` command: case-insensitive artist
match, timestamp at or after the window start, and duration strictly above
10000 ms.  A `none` window start models the invalid reference date arising
from an empty event list, against which every comparison is false. -/
def payoutPred (ws : Option Instant) (artist : String) (e : Event) : Bool :=
  decide (lowerStr e.artist = lowerStr artist) &&
  (match ws with
   | some w => decide (w.le e.timestamp)
   | none => false) &&
  decide (10000 < e.durationMs)

/-- The `artistEvents` of the `payout` command. -/
def artistEvents (E : List Event) (artist : String) (months : Int) : List Event :=
  E.filter (payoutPred ((latestInstant E).map (fun r => windowStartOf r months)) artist)

/-- The `totalMs` of the `payout` command: summed durations of matching events. -/
def totalMs (E : List Event) (artist : String) (months : Int) : Nat :=
  ((artistEvents E artist months).map Event.durationMs).sum

/-- JS `Number.prototype.toFixed(2)` on a non-negative amount: round to the
nearest multiple of `1/100`, ties rounding up. -/
def round2 (x : ℚ) : ℚ := (⌊x * 100 + 1 / 2⌋ : ℚ) / 100

/-- The `payout` query: `totalMs / 60000 * 0.001`, rounded to two decimal
places only at the end (`toFixed(2)`); arithmetic is modelled exactly. -/
def payout (E : List Event) (artist : String) (months : Int) : ℚ :=
  round2 ((totalMs E artist months : ℚ) / 60000 * (1 / 1000))

/-- One emitted line of the `timeline` command: the bucket's year, its
1-based month (`getMonth() + 1`), and the bucket's top song title and top
artist name. -/
structure TLEntry where
  year : Int
  month : Int
  topSongTitle : String
  topArtistName : String
deriving DecidableEq

/-- Title of the bucket's top song: head of the per-bucket song map sorted by
descending count (the source indexes `[0]`, guarded by the bucket being
non-empty; the `""` branch is unreachable then). -/
def topTitleOf (evs : List Event) : String :=
  match sortByCountDesc (fun p => p.2.1) (songCountsTitled evs) with
  | [] => ""
  | p :: _ => p.2.2

/-- Name of the bucket's top artist, analogously. -/
def topArtistOf (evs : List Event) : String :=
  match sortByCountDesc Prod.snd (countBy Event.artist evs) with
  | [] => ""
  | p :: _ => p.1

/-- The `monthEvents` of one timeline bucket: the user's events between the
first instant of the month `(y, mo)` and its last instant
(`new Date(y, mo + 1, 0, 23, 59, 59, 999)`). -/
def monthEventsOf (E : List Event) (u : String) (y mo : Int) : List Event :=
  E.filter (fun ev => decide (ev.userId = u) &&
    decide ((mkDate y mo 1 0).le ev.timestamp) &&
    decide (ev.timestamp.le (mkDate y (mo + 1) 0 86399999)))

/-- One iteration of the timeline loop at offset `i` months before the
reference month: `none` when the bucket is empty (the `continue` branch),
otherwise the emitted summary line. -/
def bucketEntry (E : List Event) (u : String) (ry rmo : Int) (i : Int) : Option TLEntry :=
  let monthDate := mkDate ry (rmo - i) 1 0
  let evs := monthEventsOf E u monthDate.year monthDate.month
  if evs.isEmpty then none
  else some { year := monthDate.year, month := monthDate.month + 1,
              topSongTitle := topTitleOf evs, topArtistName := topArtistOf evs }

/-- The `timeline` query: reference month from the maximum timestamp of the
whole event list, buckets for `i = months - 1` down to `0`, empty buckets
skipped; returns the `hasAnyData` flag and the emitted summaries, oldest
first.  An empty event list yields an invalid reference date in JS, against
which every bucket filter is false, so nothing is emitted. -/
def timeline (E : List Event) (u : String) (months : Int) : Bool × List TLEntry :=
  match latestInstant E with
  | none => (false, [])
  | some ref =>
    let entries := ((List.range months.toNat).reverse).filterMap
      (fun i : Nat => bucketEntry E u ref.year ref.month (i : Int))
    (!entries.isEmpty, entries)

/-- Lookup in the association-list model of a JS `Map` (`map.get(k)`). -/
def lookupC (k : String) : List (String × Nat) → Option Nat
  | [] => none
  | (k', c) :: t => if k' = k then some c else lookupC k t

/-- Number of events of `l` whose `key` is `k` (brute-force group count). -/
def countKey (key : Event → String) (l : List Event) (k : String) : Nat :=
  (l.filter (fun e => decide (key e = k))).length

/-- Brute-force recount for `top-songs`: the number of events of `E` with
timestamp in `[s, e]` and the given song id, counted directly. -/
def bruteCount (E : List Event) (s e : Instant) (sid : String) : Nat :=
  (E.filter (fun ev =>
    decide (s.le ev.timestamp ∧ ev.timestamp.le e ∧ ev.songId = sid))).length

/-- Modelled from the spec's words, for the payout refinement claim: the
first instant of the calendar month `months - 1` months before the reference
month. -/
def windowStartSpec (ref : Instant) (months : Int) : Instant :=
  { year := (ref.year * 12 + ref.month - (months - 1)) / 12,
    month := (ref.year * 12 + ref.month - (months - 1)) % 12,
    day := 1, ms := 0 }

/-- Modelled from the spec's words: events matching the payout filter —
artist equal after case-folding, timestamp at or after the window start,
duration strictly greater than 10000 ms. -/
def matchingSpec (E : List Event) (ws : Instant) (a : String) : List Event :=
  E.filter (fun ev =>
    decide (lowerStr ev.artist = lowerStr a ∧ ws.le ev.timestamp ∧ 10000 < ev.durationMs))

/-- Summed durations of the spec-side matching events. -/
def sumDurSpec (E : List Event) (ws : Instant) (a : String) : Nat :=
  ((matchingSpec E ws a).map Event.durationMs).sum

/-- The C1 guarantees for `topSongs`, bundled: result length at most `n`;
result sorted by descending brute-force play count; every returned id comes
from an event in range; every count in the grouping map equals the
brute-force recount; and when `n` exceeds the number of distinct songs in
range, the result lists exactly the distinct songs in range, each once. -/
def TopSongsOk (E : List Event) (s e : Instant) (n : Int) : Prop :=
  ((topSongs E s e n).length : Int) ≤ n ∧
  (topSongs E s e n).Pairwise (fun a b => bruteCount E s e b ≤ bruteCount E s e a) ∧
  (∀ sid ∈ topSongs E s e n, ∃ ev ∈ filteredEvents E s e, ev.songId = sid) ∧
  (∀ sid c, (sid, c) ∈ songCounts E s e → c = bruteCount E s e sid) ∧
  (((songCounts E s e).length : Int) < n →
    (topSongs E s e n).Nodup ∧
    ∀ sid, sid ∈ topSongs E s e n ↔ ∃ ev ∈ filteredEvents E s e, ev.songId = sid)

/-- Month index of an emitted timeline entry (its `(year, month)` pair on a
single absolute axis; the entry's `month` field is 1-based). -/
def ymOfEntry (t : TLEntry) : Int := t.year * 12 + (t.month - 1)

/-- The C3 guarantees for `timeline`, bundled: the reference "now" is the
maximum timestamp over the entire event set; at most `months` entries are
emitted; entry month indices are strictly increasing (hence the
`(year, month)` pairs are unique and in chronological order); every entry
lies within the requested window of `months` calendar months ending at the
reference month; and a window month appears among the entries exactly when
its bucket of matching events is non-empty. -/
def TimelineOk (E : List Event) (u : String) (months : Int) : Prop :=
  ∃ ref, latestInstant E = some ref ∧
    (∀ ev ∈ E, ev.timestamp.le ref) ∧
    (∃ ev ∈ E, ev.timestamp = ref) ∧
    ((timeline E u months).2.length : Int) ≤ months ∧
    (timeline E u months).2.Pairwise (fun a b => ymOfEntry a < ymOfEntry b) ∧
    (∀ t ∈ (timeline E u months).2,
      ref.year * 12 + ref.month - (months - 1) ≤ ymOfEntry t ∧
      ymOfEntry t ≤ ref.year * 12 + ref.month) ∧
    (∀ i : Nat, (i : Int) < months →
      (monthEventsOf E u ((ref.year * 12 + ref.month - i) / 12)
          ((ref.year * 12 + ref.month - i) % 12) ≠ [] ↔
        (ref.year * 12 + ref.month - i) ∈ (timeline E u months).2.map ymOfEntry))

/-- Keys of a list in first-seen order: the order in which a JS `Map` built
by repeated `set` iterates its keys. -/
def firstSeen : List String → List String
  | [] => []
  | a :: t => a :: (firstSeen t).filter (fun x => decide (x ≠ a))

/-- Forget the `title` component of a timeline song-map entry, keeping the
song id and the count. -/
def stripTitle (p : String × (Nat × String)) : String × Nat := (p.1, p.2.1)

/-! ### General lemmas about the embedding -/

theorem filteredEvents_nil_of_rev (E : List Event) (s e : Instant) (h : e.lt s) :
    filteredEvents E s e = [] := by
  refine List.filter_eq_nil_iff.mpr ?_
  intro ev _
  simp only [Bool.and_eq_true, decide_eq_true_eq, not_and]
  intro h1 h2
  exact Instant.not_le_of_lt h (Instant.le_trans h1 h2)

theorem jsSlice_nil (n : Int) : jsSlice ([] : List α) n = [] := by
  simp [jsSlice]

theorem countKey_cons (key : Event → String) (e : Event) (t : List Event) (k : String) :
    countKey key (e :: t) k =
      (if key e = k then 1 else 0) + countKey key t k := by
  unfold countKey
  rcases eq_or_ne (key e) k with h | h <;> simp [List.filter_cons, h, Nat.add_comm]

theorem lookupC_bump (k k' : String) (m : List (String × Nat)) :
    lookupC k' (bumpBy k m) =
      if k' = k then some ((lookupC k m).getD 0 + 1) else lookupC k' m := by
  induction m with
  | nil =>
    rcases eq_or_ne k' k with h | h
    · subst h; simp [bumpBy, lookupC]
    · simp [bumpBy, lookupC, h, Ne.symm h]
  | cons p t ih =>
    obtain ⟨k2, c2⟩ := p
    by_cases h2 : k2 = k
    · subst h2
      rcases eq_or_ne k' k2 with h | h
      · subst h; simp [bumpBy, lookupC]
      · simp [bumpBy, lookupC, h, Ne.symm h]
    · rcases eq_or_ne k' k2 with h | h
      · subst h
        simp [bumpBy, lookupC, h2, Ne.symm h2]
      · simp [bumpBy, lookupC, h2, Ne.symm h, ih]

theorem lookupC_foldl_bump (key : Event → String) (l : List Event)
    (m : List (String × Nat)) (k : String) :
    lookupC k (l.foldl (fun acc e => bumpBy (key e) acc) m) =
      match lookupC k m with
      | some c => some (c + countKey key l k)
      | none => if k ∈ l.map key then some (countKey key l k) else none := by
  induction l generalizing m with
  | nil =>
    cases hm : lookupC k m <;> simp [countKey, hm]
  | cons e t ih =>
    simp only [List.foldl_cons]
    rw [ih, lookupC_bump, countKey_cons]
    rcases eq_or_ne (key e) k with h | h
    · rw [if_pos h.symm]
      cases hm : lookupC k m <;> simp [hm, h, Nat.add_comm, Nat.add_assoc, Nat.add_left_comm]
    · rw [if_neg (Ne.symm h)]
      cases hm : lookupC k m <;> simp [hm, h, Ne.symm h]

theorem keys_bump (k : String) (m : List (String × Nat)) :
    (bumpBy k m).map Prod.fst =
      if k ∈ m.map Prod.fst then m.map Prod.fst else m.map Prod.fst ++ [k] := by
  induction m with
  | nil => simp [bumpBy]
  | cons p t ih =>
    obtain ⟨k2, c2⟩ := p
    by_cases h2 : k2 = k
    · subst h2; simp [bumpBy]
    · by_cases hk : k ∈ t.map Prod.fst <;>
        simp [bumpBy, h2, Ne.symm h2, ih, hk, List.mem_cons]

theorem mem_keys_bump (k k' : String) (m : List (String × Nat)) :
    k' ∈ (bumpBy k m).map Prod.fst ↔ k' ∈ m.map Prod.fst ∨ k' = k := by
  rw [keys_bump]
  by_cases h : k ∈ m.map Prod.fst
  · rw [if_pos h]
    constructor
    · exact Or.inl
    · rintro (hm | rfl)
      · exact hm
      · exact h
  · rw [if_neg h]
    simp [List.mem_append]

theorem nodup_keys_bump (k : String) (m : List (String × Nat))
    (h : (m.map Prod.fst).Nodup) : ((bumpBy k m).map Prod.fst).Nodup := by
  rw [keys_bump]
  split
  · exact h
  · rename_i hk
    refine List.Nodup.append h (List.nodup_singleton k) ?_
    intro a ha hae
    rw [List.mem_singleton] at hae
    subst hae
    exact hk ha

theorem mem_keys_foldl_bump (key : Event → String) (l : List Event)
    (m : List (String × Nat)) (k : String) :
    k ∈ (l.foldl (fun acc e => bumpBy (key e) acc) m).map Prod.fst ↔
      k ∈ m.map Prod.fst ∨ k ∈ l.map key := by
  induction l generalizing m with
  | nil => simp
  | cons e t ih =>
    simp only [List.foldl_cons, List.map_cons, List.mem_cons]
    rw [ih, mem_keys_bump]
    tauto

theorem nodup_keys_foldl_bump (key : Event → String) (l : List Event)
    (m : List (String × Nat)) (h : (m.map Prod.fst).Nodup) :
    ((l.foldl (fun acc e => bumpBy (key e) acc) m).map Prod.fst).Nodup := by
  induction l generalizing m with
  | nil => exact h
  | cons e t ih => exact ih _ (nodup_keys_bump _ _ h)

theorem mem_keys_countBy (key : Event → String) (l : List Event) (k : String) :
    k ∈ (countBy key l).map Prod.fst ↔ k ∈ l.map key := by
  unfold countBy
  rw [mem_keys_foldl_bump]
  simp

theorem nodup_keys_countBy (key : Event → String) (l : List Event) :
    ((countBy key l).map Prod.fst).Nodup :=
  nodup_keys_foldl_bump key l [] (by simp)

theorem lookupC_countBy (key : Event → String) (l : List Event) (k : String) :
    lookupC k (countBy key l) =
      if k ∈ l.map key then some (countKey key l k) else none := by
  unfold countBy
  rw [lookupC_foldl_bump]
  rfl

theorem lookupC_of_mem_nodup (m : List (String × Nat)) (k : String) (c : Nat)
    (hmem : (k, c) ∈ m) (hnd : (m.map Prod.fst).Nodup) : lookupC k m = some c := by
  induction m with
  | nil => cases hmem
  | cons p t ih =>
    obtain ⟨k2, c2⟩ := p
    simp only [List.map_cons] at hnd
    have hnd' := List.nodup_cons.mp hnd
    rcases List.mem_cons.mp hmem with h | h
    · cases h
      simp [lookupC]
    · have hk2 : k2 ≠ k := by
        rintro rfl
        exact hnd'.1 (List.mem_map_of_mem Prod.fst h)
      simp only [lookupC, if_neg hk2]
      exact ih h hnd'.2

theorem mem_countBy_count (key : Event → String) (l : List Event) (k : String) (c : Nat)
    (hmem : (k, c) ∈ countBy key l) : c = countKey key l k := by
  have h1 := lookupC_of_mem_nodup _ _ _ hmem (nodup_keys_countBy key l)
  rw [lookupC_countBy] at h1
  split at h1
  · injection h1 with h2
    exact h2.symm
  · cases h1

theorem mem_of_lookupC (m : List (String × Nat)) (k : String) (c : Nat)
    (h : lookupC k m = some c) : (k, c) ∈ m := by
  induction m with
  | nil => cases h
  | cons p t ih =>
    obtain ⟨k2, c2⟩ := p
    by_cases h2 : k2 = k
    · subst h2
      simp only [lookupC, if_pos rfl] at h
      injection h with h'
      subst h'
      exact List.mem_cons_self _ _
    · simp only [lookupC, if_neg h2] at h
      exact List.mem_cons_of_mem _ (ih h)

theorem sortByCountDesc_perm (f : α → Nat) (l : List α) :
    (sortByCountDesc f l).Perm l :=
  List.perm_insertionSort _ l

theorem sortByCountDesc_pairwise (f : α → Nat) (l : List α) :
    (sortByCountDesc f l).Pairwise (fun a b => f b ≤ f a) := by
  haveI : IsTotal α (fun a b => f b ≤ f a) := ⟨fun a b => Nat.le_total (f b) (f a)⟩
  haveI : IsTrans α (fun a b => f b ≤ f a) := ⟨fun a b c h1 h2 => le_trans h2 h1⟩
  exact List.sorted_insertionSort _ l

theorem jsSlice_sublist (l : List α) (n : Int) : (jsSlice l n).Sublist l := by
  unfold jsSlice
  split <;> exact List.take_sublist _ _

/-! ### Claim theorems: easy range and totality claims -/

/-- C5: for every event list `E`, every `n`, and every range whose start is
after its end, `topSongs` returns the empty sequence (and in particular does
not fail). -/
theorem topSongs_start_after_end (E : List Event) (s e : Instant) (n : Int)
    (h : e.lt s) : topSongs E s e n = [] := by
  unfold topSongs rankedSongs songCounts
  rw [filteredEvents_nil_of_rev E s e h]
  show List.map Prod.fst (jsSlice ([] : List (String × Nat)) n) = []
  rw [jsSlice_nil]
  rfl

/-- Witness for C5 at a concrete input: a March-to-February range over a
non-empty event list yields `[]`. -/
theorem topSongs_start_after_end_witness :
    topSongs [{ userId := "u1", songId := "A", timestamp := ⟨2025, 2, 10, 0⟩,
                durationMs := 200000, title := "T", artist := "X", releaseDate := "r" }]
      ⟨2025, 2, 31, 0⟩ ⟨2025, 1, 1, 0⟩ 5 = [] :=
  topSongs_start_after_end _ _ _ _ (by decide)

/-- C4 (code bug): the source slices with `Array.prototype.slice(0, n)`, and
for negative `n` JS takes all but the last `-n` elements instead of none.
With two distinct in-range songs and `n = -1`, `topSongs` returns one song
id, not the empty sequence the spec requires for every `n ≤ 0`. -/
theorem topSongs_negative_n_counterexample :
    topSongs
      [{ userId := "u1", songId := "A", timestamp := ⟨2025, 2, 5, 0⟩,
         durationMs := 200000, title := "TA", artist := "XA", releaseDate := "r" },
       { userId := "u1", songId := "B", timestamp := ⟨2025, 2, 6, 0⟩,
         durationMs := 200000, title := "TB", artist := "XB", releaseDate := "r" }]
      ⟨2025, 2, 1, 0⟩ ⟨2025, 2, 28, 0⟩ (-1) = ["A"] := by
  decide

/-- C9: the three queries are total.  On the empty event list — where the
reference "now" is the maximum over no events, the point flagged by the spec
— each still returns its defined empty/zero result, and the payout is a
well-defined non-negative amount on every input. -/
theorem queries_total :
    (∀ s e : Instant, ∀ n : Int, topSongs [] s e n = []) ∧
    (∀ u : String, ∀ m : Int, timeline [] u m = (false, [])) ∧
    (∀ a : String, ∀ m : Int, payout [] a m = 0) ∧
    (∀ E : List Event, ∀ a : String, ∀ m : Int, 0 ≤ payout E a m) := by
  refine ⟨fun s e n => ?_, fun u m => rfl, fun a m => ?_, fun E a m => ?_⟩
  · unfold topSongs rankedSongs songCounts filteredEvents
    show List.map Prod.fst (jsSlice ([] : List (String × Nat)) n) = []
    rw [jsSlice_nil]
    rfl
  · show round2 ((0 : ℚ) / 60000 * (1 / 1000)) = 0
    norm_num [round2]
  · unfold payout round2
    have hx : (0 : ℚ) ≤ (totalMs E a m : ℚ) / 60000 * (1 / 1000) := by positivity
    have hf : (0 : ℤ) ≤ ⌊(totalMs E a m : ℚ) / 60000 * (1 / 1000) * 100 + 1 / 2⌋ :=
      Int.floor_nonneg.mpr (by linarith)
    have hq : (0 : ℚ) ≤ (⌊(totalMs E a m : ℚ) / 60000 * (1 / 1000) * 100 + 1 / 2⌋ : ℚ) :=
      Int.cast_nonneg.mpr hf

    exact div_nonneg hq (by norm_num)

/-- C7: the payout's artist matching is case-insensitive — two artist-name
arguments equal after case-folding yield identical payouts on every event
list and window. -/
theorem payout_case_insensitive (E : List Event) (a1 a2 : String) (m : Int)
    (h : lowerStr a1 = lowerStr a2) : payout E a1 m = payout E a2 m := by
  unfold payout totalMs artistEvents payoutPred
  rw [h]

/-- Witness for C7: querying "drake" and "Drake" over the same data yields
the same payout. -/
theorem payout_case_insensitive_witness :
    payout [{ userId := "u1", songId := "A", timestamp := ⟨2025, 2, 5, 0⟩,
              durationMs := 600000, title := "T", artist := "Drake", releaseDate := "r" }]
      "drake" 2
    = payout [{ userId := "u1", songId := "A", timestamp := ⟨2025, 2, 5, 0⟩,
                durationMs := 600000, title := "T", artist := "Drake", releaseDate := "r" }]
      "Drake" 2 :=
  payout_case_insensitive _ _ _ _ (by decide)

theorem windowStartOf_eq_spec (ref : Instant) (m : Int) :
    windowStartOf ref m = windowStartSpec ref m := by
  have harg : ref.year * 12 + (ref.month - m + 1) = ref.year * 12 + ref.month - (m - 1) := by
    ring
  simp [windowStartOf, mkDate, windowStartSpec, harg]

theorem artistEvents_eq_matchingSpec (E : List Event) (a : String) (m : Int)
    (ref : Instant) (hlat : latestInstant E = some ref) :
    artistEvents E a m = matchingSpec E (windowStartSpec ref m) a := by
  unfold artistEvents matchingSpec
  rw [hlat]
  refine List.filter_congr ?_
  intro ev _
  simp [payoutPred, windowStartOf_eq_spec, Bool.and_assoc]

/-- C6: the payout duration threshold is strict.  No event in the summed
`artistEvents` has duration 10000 ms or below; an event with duration exactly
10000 ms never passes the filter; and an otherwise-matching event with
duration 10001 ms always does. -/
theorem payout_duration_threshold (E : List Event) (a : String) (m : Int) :
    (∀ ev ∈ artistEvents E a m, 10000 < ev.durationMs) ∧
    (∀ ev ∈ E, ev.durationMs = 10000 → ev ∉ artistEvents E a m) ∧
    (∀ ref ev, latestInstant E = some ref → ev ∈ E →
      lowerStr ev.artist = lowerStr a → (windowStartOf ref m).le ev.timestamp →
      ev.durationMs = 10001 → ev ∈ artistEvents E a m) := by
  refine ⟨fun ev hev => ?_, fun ev _ hdur hev => ?_, fun ref ev hlat hmem hart hts hdur => ?_⟩
  · rcases List.mem_filter.mp hev with ⟨-, hp⟩
    simp only [payoutPred, Bool.and_eq_true, decide_eq_true_eq] at hp
    exact hp.2
  · rcases List.mem_filter.mp hev with ⟨-, hp⟩
    simp only [payoutPred, Bool.and_eq_true, decide_eq_true_eq] at hp
    omega
  · refine List.mem_filter.mpr ⟨hmem, ?_⟩
    simp only [payoutPred, hlat, Option.map_some', Bool.and_eq_true, decide_eq_true_eq]
    exact ⟨⟨hart, hts⟩, by omega⟩

/-- Witness for C6 at a concrete input: with one 10000 ms and one 10001 ms
stream by the queried artist in the window, only the 10001 ms event is
summed. -/
theorem payout_duration_threshold_witness :
    ({ userId := "u1", songId := "B", timestamp := ⟨2025, 2, 5, 0⟩,
       durationMs := 10001, title := "TB", artist := "X", releaseDate := "r" } : Event) ∈
      artistEvents
        [{ userId := "u1", songId := "A", timestamp := ⟨2025, 2, 5, 0⟩,
           durationMs := 10000, title := "TA", artist := "X", releaseDate := "r" },
         { userId := "u1", songId := "B", timestamp := ⟨2025, 2, 5, 0⟩,
           durationMs := 10001, title := "TB", artist := "X", releaseDate := "r" }]
        "x" 2 ∧
    ({ userId := "u1", songId := "A", timestamp := ⟨2025, 2, 5, 0⟩,
       durationMs := 10000, title := "TA", artist := "X", releaseDate := "r" } : Event) ∉
      artistEvents
        [{ userId := "u1", songId := "A", timestamp := ⟨2025, 2, 5, 0⟩,
           durationMs := 10000, title := "TA", artist := "X", releaseDate := "r" },
         { userId := "u1", songId := "B", timestamp := ⟨2025, 2, 5, 0⟩,
           durationMs := 10001, title := "TB", artist := "X", releaseDate := "r" }]
        "x" 2 := by
  constructor
  · exact (payout_duration_threshold _ "x" 2).2.2 ⟨2025, 2, 5, 0⟩ _ rfl
      (by simp) (by decide) (by decide) rfl
  · exact (payout_duration_threshold _ "x" 2).2.1 _ (by simp) rfl

/-- C2: the payout equals the spec formula — durations of events matching
the artist case-insensitively, with timestamp at or after the first instant
of the calendar month `m - 1` months before the reference month (window
open-ended at the top), and duration strictly over 10000 ms, summed, divided
by 60000, multiplied by 0.001, and rounded to two decimals only at the end;
zero matching events yield 0.00. -/
theorem payout_formula (E : List Event) (a : String) (m : Int) (_hm : 1 ≤ m) :
    (∀ ref, latestInstant E = some ref →
      payout E a m =
        round2 ((sumDurSpec E (windowStartSpec ref m) a : ℚ) / 60000 * (1 / 1000)) ∧
      (matchingSpec E (windowStartSpec ref m) a = [] → payout E a m = 0)) ∧
    (latestInstant E = none → payout E a m = 0) := by
  constructor
  · intro ref hlat
    have hev : artistEvents E a m = matchingSpec E (windowStartSpec ref m) a :=
      artistEvents_eq_matchingSpec E a m ref hlat
    constructor
    · unfold payout totalMs sumDurSpec
      rw [hev]
    · intro hnil
      unfold payout totalMs
      rw [hev, hnil]
      norm_num [round2]
  · intro hlat
    have hev : artistEvents E a m = [] := by
      unfold artistEvents
      rw [hlat]
      refine List.filter_eq_nil_iff.mpr ?_
      intro ev _
      simp [payoutPred]
    unfold payout totalMs
    rw [hev]
    norm_num [round2]

/-- Witness for C2 at a concrete input: one ten-minute stream in the window
pays `round2 (600000 / 60000 * 0.001) = 0.01`. -/
theorem payout_formula_witness :
    payout [{ userId := "u1", songId := "A", timestamp := ⟨2025, 2, 5, 0⟩,
              durationMs := 600000, title := "T", artist := "X", releaseDate := "r" }]
      "x" 2 =
    round2 ((sumDurSpec
        [{ userId := "u1", songId := "A", timestamp := ⟨2025, 2, 5, 0⟩,
           durationMs := 600000, title := "T", artist := "X", releaseDate := "r" }]
        (windowStartSpec ⟨2025, 2, 5, 0⟩ 2) "x" : ℚ) / 60000 * (1 / 1000)) := by
  exact ((payout_formula
    [{ userId := "u1", songId := "A", timestamp := ⟨2025, 2, 5, 0⟩,
       durationMs := 600000, title := "T", artist := "X", releaseDate := "r" }]
    "x" 2 (by norm_num)).1 ⟨2025, 2, 5, 0⟩ rfl).1

theorem songCounts_count (E : List Event) (s e : Instant) (sid : String) (c : Nat)
    (hmem : (sid, c) ∈ songCounts E s e) : c = bruteCount E s e sid := by
  rw [mem_countBy_count Event.songId (filteredEvents E s e) sid c hmem]
  unfold countKey bruteCount filteredEvents
  rw [List.filter_filter]
  congr 1
  refine List.filter_congr ?_
  intro ev _
  simp only [Bool.decide_and, Bool.and_eq_true, decide_eq_true_eq, Bool.and_assoc]
  rcases Decidable.em (Event.songId ev = sid) with h1 | h1 <;>
    rcases Decidable.em (s.le ev.timestamp) with h2 | h2 <;>
    rcases Decidable.em (ev.timestamp.le e) with h3 | h3 <;>
    simp [h1, h2, h3]

/-- C1: for `s ≤ e` and `n ≥ 0`, `topSongs` filters to the inclusive range,
groups by song id, and returns at most `n` ids sorted by descending play
count, every grouped count matching the brute-force recount; when `n`
exceeds the number of distinct songs in range it returns exactly the
distinct songs. -/
theorem topSongs_ok (E : List Event) (s e : Instant) (n : Int)
    (_hse : s.le e) (hn : 0 ≤ n) : TopSongsOk E s e n := by
  have hperm : (rankedSongs E s e).Perm (songCounts E s e) := sortByCountDesc_perm _ _
  have hcount : ∀ sid c, (sid, c) ∈ songCounts E s e → c = bruteCount E s e sid :=
    fun sid c h => songCounts_count E s e sid c h
  refine ⟨?_, ?_, ?_, hcount, ?_⟩
  · unfold topSongs jsSlice
    rw [if_pos hn, List.length_map, List.length_take]
    calc ((min n.toNat (rankedSongs E s e).length : Nat) : Int)
        ≤ (n.toNat : Int) := by exact_mod_cast Nat.min_le_left _ _
      _ = n := Int.toNat_of_nonneg hn
  · have hp0 : (rankedSongs E s e).Pairwise (fun a b => b.2 ≤ a.2) :=
      sortByCountDesc_pairwise _ _
    have hp1 : (jsSlice (rankedSongs E s e) n).Pairwise (fun a b => b.2 ≤ a.2) :=
      hp0.sublist (jsSlice_sublist _ _)
    unfold topSongs
    refine List.pairwise_map.mpr (hp1.imp_of_mem ?_)
    intro a b ha hb hle
    have ha' : a ∈ songCounts E s e :=
      hperm.mem_iff.mp ((jsSlice_sublist _ _).subset ha)
    have hb' : b ∈ songCounts E s e :=
      hperm.mem_iff.mp ((jsSlice_sublist _ _).subset hb)
    have hca := hcount a.1 a.2 ha'
    have hcb := hcount b.1 b.2 hb'
    rw [← hca, ← hcb]
    exact hle
  · intro sid hsid
    unfold topSongs at hsid
    rcases List.mem_map.mp hsid with ⟨p, hp, rfl⟩
    have hp' : p ∈ songCounts E s e :=
      hperm.mem_iff.mp ((jsSlice_sublist _ _).subset hp)
    have hkey : p.1 ∈ (filteredEvents E s e).map Event.songId :=
      (mem_keys_countBy _ _ _).mp (List.mem_map_of_mem Prod.fst hp')
    rcases List.mem_map.mp hkey with ⟨ev, hev, hev2⟩
    exact ⟨ev, hev, hev2⟩
  · intro hlt
    have hlen : (rankedSongs E s e).length = (songCounts E s e).length := hperm.length_eq
    have htake : jsSlice (rankedSongs E s e) n = rankedSongs E s e := by
      unfold jsSlice
      rw [if_pos hn]
      refine List.take_of_length_le ?_
      rw [hlen]
      omega
    have hkeysperm : ((rankedSongs E s e).map Prod.fst).Perm
        ((songCounts E s e).map Prod.fst) := hperm.map _
    constructor
    · unfold topSongs
      rw [htake]
      exact hkeysperm.nodup_iff.mpr (nodup_keys_countBy _ _)
    · intro sid
      unfold topSongs
      rw [htake]
      rw [List.Perm.mem_iff hkeysperm]
      show sid ∈ (countBy Event.songId (filteredEvents E s e)).map Prod.fst ↔ _
      rw [mem_keys_countBy]
      constructor
      · intro h
        rcases List.mem_map.mp h with ⟨ev, hev, hev2⟩
        exact ⟨ev, hev, hev2⟩
      · rintro ⟨ev, hev, rfl⟩
        exact List.mem_map_of_mem Event.songId hev

/-- Witness for C1 at the spec's concrete scenario: three March events,
songs A, A, B; `topSongs` over March with `n = 3` satisfies all the C1
guarantees. -/
theorem topSongs_ok_witness :
    TopSongsOk
      [{ userId := "u1", songId := "A", timestamp := ⟨2025, 2, 5, 0⟩,
         durationMs := 200000, title := "TA", artist := "XA", releaseDate := "r" },
       { userId := "u1", songId := "A", timestamp := ⟨2025, 2, 6, 0⟩,
         durationMs := 200000, title := "TA", artist := "XA", releaseDate := "r" },
       { userId := "u2", songId := "B", timestamp := ⟨2025, 2, 7, 0⟩,
         durationMs := 200000, title := "TB", artist := "XB", releaseDate := "r" }]
      ⟨2025, 2, 1, 0⟩ ⟨2025, 2, 31, 0⟩ 3 :=
  topSongs_ok _ _ _ _ (by decide) (by norm_num)

theorem Instant.le_of_lt {a b : Instant} (h : a.lt b) : a.le b := by
  unfold Instant.lt at h; unfold Instant.le; omega

theorem foldl_latest_spec (t : List Event) (a : Instant) :
    a.le (t.foldl (fun acc e' => if acc.lt e'.timestamp then e'.timestamp else acc) a) ∧
    (∀ ev ∈ t,
      ev.timestamp.le
        (t.foldl (fun acc e' => if acc.lt e'.timestamp then e'.timestamp else acc) a)) ∧
    (t.foldl (fun acc e' => if acc.lt e'.timestamp then e'.timestamp else acc) a = a ∨
      ∃ ev ∈ t,
        ev.timestamp =
          t.foldl (fun acc e' => if acc.lt e'.timestamp then e'.timestamp else acc) a) := by
  induction t generalizing a with
  | nil => exact ⟨Instant.le_refl a, by simp, Or.inl rfl⟩
  | cons e' tl ih =>
    simp only [List.foldl_cons]
    obtain ⟨ih1, ih2, ih3⟩ := ih (if a.lt e'.timestamp then e'.timestamp else a)
    have haa' : a.le (if a.lt e'.timestamp then e'.timestamp else a) := by
      split
      · exact Instant.le_of_lt (by assumption)
      · exact Instant.le_refl a
    have he' : e'.timestamp.le (if a.lt e'.timestamp then e'.timestamp else a) := by
      split
      · exact Instant.le_refl _
      · exact Instant.le_of_not_lt (by assumption)
    refine ⟨Instant.le_trans haa' ih1, ?_, ?_⟩
    · intro ev hev
      rcases List.mem_cons.mp hev with h | h
      · subst h
        exact Instant.le_trans he' ih1
      · exact ih2 ev h
    · rcases ih3 with h | ⟨ev, hev, heq⟩
      · rw [h]
        split
        · exact Or.inr ⟨e', List.mem_cons_self _ _, rfl⟩
        · exact Or.inl rfl
      · exact Or.inr ⟨ev, List.mem_cons_of_mem _ hev, heq⟩

theorem latestInstant_spec (E : List Event) (hE : E ≠ []) :
    ∃ ref, latestInstant E = some ref ∧
      (∀ ev ∈ E, ev.timestamp.le ref) ∧ ∃ ev ∈ E, ev.timestamp = ref := by
  cases E with
  | nil => exact absurd rfl hE
  | cons e t =>
    obtain ⟨h1, h2, h3⟩ := foldl_latest_spec t e.timestamp
    refine ⟨_, rfl, ?_, ?_⟩
    · intro ev hev
      rcases List.mem_cons.mp hev with h | h
      · subst h
        exact h1
      · exact h2 ev h
    · rcases h3 with h | ⟨ev, hev, heq⟩
      · exact ⟨e, List.mem_cons_self _ _, h.symm⟩
      · exact ⟨ev, List.mem_cons_of_mem _ hev, heq⟩

theorem bucketEntry_some_iff (E : List Event) (u : String) (ry rmo i : Int)
    (t : TLEntry) :
    bucketEntry E u ry rmo i = some t ↔
      monthEventsOf E u ((ry * 12 + rmo - i) / 12) ((ry * 12 + rmo - i) % 12) ≠ [] ∧
      t = { year := (ry * 12 + rmo - i) / 12,
            month := (ry * 12 + rmo - i) % 12 + 1,
            topSongTitle := topTitleOf (monthEventsOf E u
              ((ry * 12 + rmo - i) / 12) ((ry * 12 + rmo - i) % 12)),
            topArtistName := topArtistOf (monthEventsOf E u
              ((ry * 12 + rmo - i) / 12) ((ry * 12 + rmo - i) % 12)) } := by
  have harg : ry * 12 + (rmo - i) = ry * 12 + rmo - i := by ring
  simp only [bucketEntry, mkDate, if_neg (by norm_num : ¬ (1 : Int) = 0), harg]
  split
  · rename_i hemp
    rw [List.isEmpty_iff] at hemp
    simp [hemp]
  · rename_i hemp
    rw [List.isEmpty_iff] at hemp
    simp [hemp, eq_comm]

theorem ymOfEntry_of_bucketEntry (E : List Event) (u : String) (ry rmo i : Int)
    (t : TLEntry) (h : bucketEntry E u ry rmo i = some t) :
    ymOfEntry t = ry * 12 + rmo - i := by
  obtain ⟨-, rfl⟩ := (bucketEntry_some_iff E u ry rmo i t).mp h
  unfold ymOfEntry
  simp only
  omega

/-- C3: on a non-empty event list and positive `months`, `timeline` uses the
maximum timestamp of the entire event set as reference "now", emits at most
`months` entries with strictly increasing (hence unique) month indices in
chronological order, all within the requested window, and has exactly one
entry per non-empty calendar-month bucket of the window. -/
theorem timeline_ok (E : List Event) (u : String) (m : Int)
    (hE : E ≠ []) (hm : 1 ≤ m) : TimelineOk E u m := by
  obtain ⟨ref, href, hmax, hmem⟩ := latestInstant_spec E hE
  have htl : (timeline E u m).2 =
      ((List.range m.toNat).reverse).filterMap
        (fun i : Nat => bucketEntry E u ref.year ref.month (i : Int)) := by
    unfold timeline
    rw [href]
  refine ⟨ref, href, hmax, hmem, ?_, ?_, ?_, ?_⟩
  · rw [htl]
    calc ((((List.range m.toNat).reverse).filterMap
            (fun i : Nat => bucketEntry E u ref.year ref.month (i : Int))).length : Int)
        ≤ (((List.range m.toNat).reverse).length : Int) := by
          exact_mod_cast List.length_filterMap_le _ _
      _ = (m.toNat : Int) := by rw [List.length_reverse, List.length_range]
      _ = m := by omega
  · rw [htl]
    refine List.pairwise_filterMap.mpr (List.pairwise_reverse.mpr ?_)
    refine (List.sorted_lt_range m.toNat).imp_of_mem ?_
    intro a b _ _ hab
    intro t ht t' ht'
    rw [Option.mem_def] at ht ht'
    have h1 := ymOfEntry_of_bucketEntry E u ref.year ref.month b t ht
    have h2 := ymOfEntry_of_bucketEntry E u ref.year ref.month a t' ht'
    omega
  · intro t ht
    rw [htl] at ht
    obtain ⟨i, hi, hf⟩ := List.mem_filterMap.mp ht
    rw [List.mem_reverse, List.mem_range] at hi
    have h1 := ymOfEntry_of_bucketEntry E u ref.year ref.month i t hf
    omega
  · intro i hi
    have him : i ∈ (List.range m.toNat).reverse := by
      rw [List.mem_reverse, List.mem_range]
      omega
    have hargym : ref.year * 12 + ref.month - (i : Int) =
        ref.year * 12 + ref.month - i := rfl
    constructor
    · intro hne
      refine List.mem_map.mpr
        ⟨{ year := (ref.year * 12 + ref.month - i) / 12,
           month := (ref.year * 12 + ref.month - i) % 12 + 1,
           topSongTitle := topTitleOf (monthEventsOf E u
             ((ref.year * 12 + ref.month - i) / 12) ((ref.year * 12 + ref.month - i) % 12)),
           topArtistName := topArtistOf (monthEventsOf E u
             ((ref.year * 12 + ref.month - i) / 12) ((ref.year * 12 + ref.month - i) % 12)) },
         ?_, ?_⟩
      · rw [htl]
        refine List.mem_filterMap.mpr ⟨i, him, ?_⟩
        exact (bucketEntry_some_iff E u ref.year ref.month i _).mpr ⟨hne, rfl⟩
      · unfold ymOfEntry
        simp only
        omega
    · intro hmm
      rw [htl] at hmm
      obtain ⟨t, ht, hym⟩ := List.mem_map.mp hmm
      obtain ⟨j, hj, hfj⟩ := List.mem_filterMap.mp ht
      have h1 := ymOfEntry_of_bucketEntry E u ref.year ref.month j t hfj
      obtain ⟨hne, -⟩ := (bucketEntry_some_iff E u ref.year ref.month j t).mp hfj
      have hji : (j : Int) = (i : Int) := by omega
      rw [hji] at hne
      exact hne

/-- Witness for C3 at a concrete input: one user with plays in January and
March 2025 (reference month March), `months = 3`. -/
theorem timeline_ok_witness :
    TimelineOk
      [{ userId := "u1", songId := "A", timestamp := ⟨2025, 0, 10, 0⟩,
         durationMs := 200000, title := "TA", artist := "XA", releaseDate := "r" },
       { userId := "u1", songId := "B", timestamp := ⟨2025, 2, 9, 0⟩,
         durationMs := 200000, title := "TB", artist := "XB", releaseDate := "r" }]
      "u1" 3 :=
  timeline_ok _ _ _ (by simp) (by norm_num)

/-- C8: a user with zero events anywhere in the list gets
`hasAnyData = false` and no entries, for every event list and positive
`months`. -/
theorem timeline_no_user_data (E : List Event) (u : String) (m : Int)
    (_hm : 1 ≤ m) (h : ∀ ev ∈ E, ev.userId ≠ u) :
    timeline E u m = (false, []) := by
  unfold timeline
  cases hl : latestInstant E with
  | none => rfl
  | some ref =>
    have hbe : ∀ i : Nat, bucketEntry E u ref.year ref.month (i : Int) = none := by
      intro i
      unfold bucketEntry
      have hme : monthEventsOf E u (mkDate ref.year (ref.month - i) 1 0).year
          (mkDate ref.year (ref.month - i) 1 0).month = [] := by
        refine List.filter_eq_nil_iff.mpr ?_
        intro ev hev
        simp only [Bool.and_eq_true, decide_eq_true_eq]
        rintro ⟨⟨he, -⟩, -⟩
        exact h ev hev he
      simp [hme]
    have hnil : ((List.range m.toNat).reverse).filterMap
        (fun i : Nat => bucketEntry E u ref.year ref.month (i : Int)) = [] :=
      List.filterMap_eq_nil_iff.mpr (fun i _ => hbe i)
    simp [hnil]

/-- Witness for C8 at a concrete input: the queried user has no events. -/
theorem timeline_no_user_data_witness :
    timeline
      [{ userId := "alice", songId := "A", timestamp := ⟨2025, 2, 9, 0⟩,
         durationMs := 200000, title := "TA", artist := "XA", releaseDate := "r" }]
      "bob" 2 = (false, []) :=
  timeline_no_user_data _ _ _ (by norm_num) (by decide)

theorem mem_firstSeen (xs : List String) (k : String) : k ∈ firstSeen xs ↔ k ∈ xs := by
  induction xs with
  | nil => simp [firstSeen]
  | cons a t ih =>
    simp only [firstSeen, List.mem_cons, List.mem_filter, decide_eq_true_eq]
    constructor
    · rintro (rfl | ⟨hfs, -⟩)
      · exact Or.inl rfl
      · exact Or.inr (ih.mp hfs)
    · rintro (rfl | h)
      · exact Or.inl rfl
      · rcases eq_or_ne k a with rfl | hne
        · exact Or.inl rfl
        · exact Or.inr ⟨ih.mpr h, hne⟩

theorem nodup_firstSeen (xs : List String) : (firstSeen xs).Nodup := by
  induction xs with
  | nil => simp [firstSeen]
  | cons a t ih =>
    refine List.nodup_cons.mpr ⟨?_, ih.filter _⟩
    intro hmem
    rcases List.mem_filter.mp hmem with ⟨-, hne⟩
    simp at hne

theorem keys_foldl_bump_firstSeen (key : Event → String) (l : List Event)
    (m : List (String × Nat)) :
    (l.foldl (fun acc e => bumpBy (key e) acc) m).map Prod.fst =
      m.map Prod.fst ++
        (firstSeen (l.map key)).filter (fun k => decide (k ∉ m.map Prod.fst)) := by
  induction l generalizing m with
  | nil => simp [firstSeen]
  | cons e t ih =>
    simp only [List.foldl_cons, List.map_cons, firstSeen]
    rw [ih, keys_bump]
    by_cases h : key e ∈ m.map Prod.fst
    · rw [if_pos h]
      congr 1
      rw [List.filter_cons, if_neg (by simp [h]), List.filter_filter]
      refine List.filter_congr ?_
      intro x _
      rcases eq_or_ne x (key e) with rfl | hne
      · simp [h]
      · simp [hne]
    · rw [if_neg h]
      rw [List.append_assoc, List.singleton_append]
      congr 1
      rw [List.filter_cons, if_pos (by simp [h])]
      congr 1
      rw [List.filter_filter]
      refine List.filter_congr ?_
      intro x _
      rcases eq_or_ne x (key e) with rfl | hne
      · simp
      · simp [hne, List.mem_append]

theorem keys_countBy_firstSeen (key : Event → String) (l : List Event) :
    (countBy key l).map Prod.fst = firstSeen (l.map key) := by
  unfold countBy
  rw [keys_foldl_bump_firstSeen]
  simp

theorem pair_sublist_firstSeen (xs : List String) (k1 k2 : String)
    (h1 : k1 ∈ xs) (h2 : k2 ∈ xs) (hne : k1 ≠ k2)
    (hidx : xs.findIdx (fun x => decide (x = k1)) <
      xs.findIdx (fun x => decide (x = k2))) :
    [k1, k2].Sublist (firstSeen xs) := by
  induction xs with
  | nil => cases h1
  | cons a t ih =>
    by_cases ha1 : a = k1
    · subst ha1
      have hk2t : k2 ∈ t := by
        rcases List.mem_cons.mp h2 with h | h
        · exact absurd h.symm hne
        · exact h
      have hk2f : k2 ∈ (firstSeen t).filter (fun x => decide (x ≠ a)) :=
        List.mem_filter.mpr ⟨(mem_firstSeen t k2).mpr hk2t, by simp [Ne.symm hne]⟩
      exact (List.singleton_sublist.mpr hk2f).cons₂ a
    · by_cases ha2 : a = k2
      · exfalso
        subst ha2
        rw [List.findIdx_cons, List.findIdx_cons] at hidx
        simp [ha1] at hidx
      · have h1t : k1 ∈ t := by
          rcases List.mem_cons.mp h1 with h | h
          · exact absurd h.symm ha1
          · exact h
        have h2t : k2 ∈ t := by
          rcases List.mem_cons.mp h2 with h | h
          · exact absurd h.symm ha2
          · exact h
        have hidx' : t.findIdx (fun x => decide (x = k1)) <
            t.findIdx (fun x => decide (x = k2)) := by
          rw [List.findIdx_cons, List.findIdx_cons] at hidx
          simp [ha1, ha2] at hidx
          omega
        have hsub := ih h1t h2t hidx'
        have hfil : [k1, k2].Sublist
            ((firstSeen t).filter (fun x => decide (x ≠ a))) := by
          have h' := hsub.filter (fun x => decide (x ≠ a))
          rwa [show List.filter (fun x => decide (x ≠ a)) [k1, k2] = [k1, k2] from by
            simp [List.filter_cons, Ne.symm ha1, Ne.symm ha2]] at h'
        show [k1, k2].Sublist (a :: (firstSeen t).filter (fun x => decide (x ≠ a)))
        exact hfil.cons a

theorem findIdx_lt_of_pair_sublist (ys : List String) (k1 k2 : String)
    (hnd : ys.Nodup) (hs : [k1, k2].Sublist ys) (hne : k1 ≠ k2) :
    ys.findIdx (fun x => decide (x = k1)) < ys.findIdx (fun x => decide (x = k2)) := by
  induction ys with
  | nil => simp at hs
  | cons a t ih =>
    have hnd' := List.nodup_cons.mp hnd
    by_cases ha1 : a = k1
    · subst ha1
      have hk2t : k2 ∈ t := by
        cases hs with
        | cons _ h => exact h.subset (by simp)
        | cons₂ _ h => exact h.subset (by simp)
      rw [List.findIdx_cons, List.findIdx_cons]
      simp [hne]
    · have hst : [k1, k2].Sublist t := by
        cases hs with
        | cons _ h => exact h
        | cons₂ _ h => exact absurd rfl ha1
      have ha2 : a ≠ k2 := by
        rintro rfl
        exact hnd'.1 (hst.subset (by simp))
      rw [List.findIdx_cons, List.findIdx_cons]
      have hlt := ih hnd'.2 hst
      simp [ha1, ha2]
      omega

theorem pair_entries_of_keys {m : List (String × Nat)} {k1 k2 : String}
    (h : [k1, k2].Sublist (m.map Prod.fst)) :
    ∃ c1 c2, [(k1, c1), (k2, c2)].Sublist m := by
  rcases List.sublist_map_iff.mp h with ⟨l', hsub, heq⟩
  cases l' with
  | nil => simp at heq
  | cons p1 rest =>
    cases rest with
    | nil => simp at heq
    | cons p2 rest2 =>
      cases rest2 with
      | cons q qs => simp at heq
      | nil =>
        simp only [List.map_cons, List.map_nil, List.cons.injEq, and_true] at heq
        obtain ⟨h1, h2⟩ := heq
        refine ⟨p1.2, p2.2, ?_⟩
        have hp1 : (k1, p1.2) = p1 := by rw [h1]
        have hp2 : (k2, p2.2) = p2 := by rw [h2]
        rw [hp1, hp2]
        exact hsub

/-- Tie-break core: when two keys end up with equal counts in an
insertion-ordered counting map, the stable descending sort keeps the key
first seen in the grouped list ahead of the other. -/
theorem countBy_rank_first_seen (key : Event → String) (l : List Event)
    (k1 k2 : String) (hne : k1 ≠ k2)
    (h1 : k1 ∈ l.map key) (h2 : k2 ∈ l.map key)
    (hcnt : countKey key l k1 = countKey key l k2)
    (hidx : (l.map key).findIdx (fun x => decide (x = k1)) <
      (l.map key).findIdx (fun x => decide (x = k2))) :
    ((sortByCountDesc Prod.snd (countBy key l)).map Prod.fst).findIdx
        (fun x => decide (x = k1)) <
      ((sortByCountDesc Prod.snd (countBy key l)).map Prod.fst).findIdx
        (fun x => decide (x = k2)) := by
  have hkeys : (countBy key l).map Prod.fst = firstSeen (l.map key) :=
    keys_countBy_firstSeen key l
  have hsubk : [k1, k2].Sublist ((countBy key l).map Prod.fst) := by
    rw [hkeys]
    exact pair_sublist_firstSeen _ _ _ h1 h2 hne hidx
  obtain ⟨c1, c2, hsube⟩ := pair_entries_of_keys hsubk
  have hc1 : c1 = countKey key l k1 :=
    mem_countBy_count _ _ _ _ (hsube.subset (by simp))
  have hc2 : c2 = countKey key l k2 :=
    mem_countBy_count _ _ _ _ (hsube.subset (by simp))
  have hsorted : [(k1, c1), (k2, c2)].Sublist
      (sortByCountDesc Prod.snd (countBy key l)) := by
    refine List.pair_sublist_insertionSort ?_ hsube
    show c2 ≤ c1
    omega
  have hkeysub : [k1, k2].Sublist
      ((sortByCountDesc Prod.snd (countBy key l)).map Prod.fst) := by
    have h' := hsorted.map Prod.fst
    simpa using h'
  have hnd : ((sortByCountDesc Prod.snd (countBy key l)).map Prod.fst).Nodup :=
    ((sortByCountDesc_perm Prod.snd (countBy key l)).map Prod.fst).nodup_iff.mpr
      (nodup_keys_countBy _ _)
  exact findIdx_lt_of_pair_sublist _ _ _ hnd hkeysub hne

theorem strip_bumpTitle (k ttl : String) (m : List (String × (Nat × String))) :
    (bumpTitle k ttl m).map stripTitle = bumpBy k (m.map stripTitle) := by
  induction m with
  | nil => simp [bumpTitle, bumpBy, stripTitle]
  | cons p t ih =>
    obtain ⟨k2, v⟩ := p
    by_cases h2 : k2 = k
    · subst h2
      simp [bumpTitle, bumpBy, stripTitle]
    · simp [bumpTitle, bumpBy, stripTitle, h2, ih]

theorem strip_songCountsTitled_foldl (l : List Event)
    (m : List (String × (Nat × String))) :
    (l.foldl (fun acc e => bumpTitle e.songId e.title acc) m).map stripTitle =
      l.foldl (fun acc e => bumpBy e.songId acc) (m.map stripTitle) := by
  induction l generalizing m with
  | nil => rfl
  | cons e t ih =>
    simp only [List.foldl_cons]
    rw [ih, strip_bumpTitle]

theorem strip_songCountsTitled (l : List Event) :
    (songCountsTitled l).map stripTitle = countBy Event.songId l := by
  unfold songCountsTitled countBy
  exact strip_songCountsTitled_foldl l []

theorem strip_sort_titled (L : List (String × (Nat × String))) :
    (sortByCountDesc (fun p => p.2.1) L).map stripTitle =
      sortByCountDesc Prod.snd (L.map stripTitle) := by
  unfold sortByCountDesc
  exact List.map_insertionSort _ _ stripTitle L (fun a _ b _ => Iff.rfl)

theorem titled_rank_keys (evs : List Event) :
    (sortByCountDesc (fun p => p.2.1) (songCountsTitled evs)).map Prod.fst =
      (sortByCountDesc Prod.snd (countBy Event.songId evs)).map Prod.fst := by
  have h1 : (sortByCountDesc (fun p => p.2.1) (songCountsTitled evs)).map Prod.fst =
      ((sortByCountDesc (fun p => p.2.1) (songCountsTitled evs)).map stripTitle).map
        Prod.fst := by
    rw [List.map_map]
    rfl
  rw [h1, strip_sort_titled, strip_songCountsTitled]

/-- C10: tie-breaking is first-seen order, because the counting maps
preserve insertion order and the sort is stable.  In `topSongs` and in the
timeline's per-bucket song and artist rankings, when two groups have equal
play counts, the key whose first occurrence appears earlier in the grouped
event list is ranked first (smaller index in the sorted key list, so in
particular it wins the `[0]` top pick). -/
theorem tie_break_first_seen :
    (∀ (E : List Event) (s e : Instant) (k1 k2 : String),
      k1 ≠ k2 →
      k1 ∈ (filteredEvents E s e).map Event.songId →
      k2 ∈ (filteredEvents E s e).map Event.songId →
      countKey Event.songId (filteredEvents E s e) k1 =
        countKey Event.songId (filteredEvents E s e) k2 →
      ((filteredEvents E s e).map Event.songId).findIdx (fun x => decide (x = k1)) <
        ((filteredEvents E s e).map Event.songId).findIdx (fun x => decide (x = k2)) →
      ((rankedSongs E s e).map Prod.fst).findIdx (fun x => decide (x = k1)) <
        ((rankedSongs E s e).map Prod.fst).findIdx (fun x => decide (x = k2))) ∧
    (∀ (E : List Event) (u : String) (y mo : Int) (k1 k2 : String),
      k1 ≠ k2 →
      k1 ∈ (monthEventsOf E u y mo).map Event.songId →
      k2 ∈ (monthEventsOf E u y mo).map Event.songId →
      countKey Event.songId (monthEventsOf E u y mo) k1 =
        countKey Event.songId (monthEventsOf E u y mo) k2 →
      ((monthEventsOf E u y mo).map Event.songId).findIdx (fun x => decide (x = k1)) <
        ((monthEventsOf E u y mo).map Event.songId).findIdx (fun x => decide (x = k2)) →
      ((sortByCountDesc (fun p => p.2.1)
          (songCountsTitled (monthEventsOf E u y mo))).map Prod.fst).findIdx
            (fun x => decide (x = k1)) <
        ((sortByCountDesc (fun p => p.2.1)
          (songCountsTitled (monthEventsOf E u y mo))).map Prod.fst).findIdx
            (fun x => decide (x = k2))) ∧
    (∀ (E : List Event) (u : String) (y mo : Int) (k1 k2 : String),
      k1 ≠ k2 →
      k1 ∈ (monthEventsOf E u y mo).map Event.artist →
      k2 ∈ (monthEventsOf E u y mo).map Event.artist →
      countKey Event.artist (monthEventsOf E u y mo) k1 =
        countKey Event.artist (monthEventsOf E u y mo) k2 →
      ((monthEventsOf E u y mo).map Event.artist).findIdx (fun x => decide (x = k1)) <
        ((monthEventsOf E u y mo).map Event.artist).findIdx (fun x => decide (x = k2)) →
      ((sortByCountDesc Prod.snd
          (countBy Event.artist (monthEventsOf E u y mo))).map Prod.fst).findIdx
            (fun x => decide (x = k1)) <
        ((sortByCountDesc Prod.snd
          (countBy Event.artist (monthEventsOf E u y mo))).map Prod.fst).findIdx
            (fun x => decide (x = k2))) := by
  refine ⟨?_, ?_, ?_⟩
  · intro E s e k1 k2 hne h1 h2 hcnt hidx
    unfold rankedSongs songCounts
    exact countBy_rank_first_seen Event.songId (filteredEvents E s e) k1 k2 hne h1 h2 hcnt hidx
  · intro E u y mo k1 k2 hne h1 h2 hcnt hidx
    rw [titled_rank_keys]
    exact countBy_rank_first_seen Event.songId (monthEventsOf E u y mo) k1 k2 hne h1 h2 hcnt hidx
  · intro E u y mo k1 k2 hne h1 h2 hcnt hidx
    exact countBy_rank_first_seen Event.artist (monthEventsOf E u y mo) k1 k2 hne h1 h2 hcnt hidx

/-- Witness for C10 at a concrete input: songs B and A (and artists YB and
YA) tie at one play each, B/YB occurring first; B and YB are ranked first in
`topSongs`' ranking and in the timeline bucket rankings. -/
theorem tie_break_first_seen_witness :
    (((rankedSongs
        [{ userId := "u1", songId := "B", timestamp := ⟨2025, 2, 5, 0⟩,
           durationMs := 200000, title := "TB", artist := "YB", releaseDate := "r" },
         { userId := "u1", songId := "A", timestamp := ⟨2025, 2, 6, 0⟩,
           durationMs := 200000, title := "TA", artist := "YA", releaseDate := "r" }]
        ⟨2025, 2, 1, 0⟩ ⟨2025, 2, 28, 0⟩).map Prod.fst).findIdx
          (fun x => decide (x = "B")) <
      ((rankedSongs
        [{ userId := "u1", songId := "B", timestamp := ⟨2025, 2, 5, 0⟩,
           durationMs := 200000, title := "TB", artist := "YB", releaseDate := "r" },
         { userId := "u1", songId := "A", timestamp := ⟨2025, 2, 6, 0⟩,
           durationMs := 200000, title := "TA", artist := "YA", releaseDate := "r" }]
        ⟨2025, 2, 1, 0⟩ ⟨2025, 2, 28, 0⟩).map Prod.fst).findIdx
          (fun x => decide (x = "A"))) ∧
    (((sortByCountDesc (fun p => p.2.1)
        (songCountsTitled (monthEventsOf
          [{ userId := "u1", songId := "B", timestamp := ⟨2025, 2, 5, 0⟩,
             durationMs := 200000, title := "TB", artist := "YB", releaseDate := "r" },
           { userId := "u1", songId := "A", timestamp := ⟨2025, 2, 6, 0⟩,
             durationMs := 200000, title := "TA", artist := "YA", releaseDate := "r" }]
          "u1" 2025 2))).map Prod.fst).findIdx (fun x => decide (x = "B")) <
      ((sortByCountDesc (fun p => p.2.1)
        (songCountsTitled (monthEventsOf
          [{ userId := "u1", songId := "B", timestamp := ⟨2025, 2, 5, 0⟩,
             durationMs := 200000, title := "TB", artist := "YB", releaseDate := "r" },
           { userId := "u1", songId := "A", timestamp := ⟨2025, 2, 6, 0⟩,
             durationMs := 200000, title := "TA", artist := "YA", releaseDate := "r" }]
          "u1" 2025 2))).map Prod.fst).findIdx (fun x => decide (x = "A"))) ∧
    (((sortByCountDesc Prod.snd
        (countBy Event.artist (monthEventsOf
          [{ userId := "u1", songId := "B", timestamp := ⟨2025, 2, 5, 0⟩,
             durationMs := 200000, title := "TB", artist := "YB", releaseDate := "r" },
           { userId := "u1", songId := "A", timestamp := ⟨2025, 2, 6, 0⟩,
             durationMs := 200000, title := "TA", artist := "YA", releaseDate := "r" }]
          "u1" 2025 2))).map Prod.fst).findIdx (fun x => decide (x = "YB")) <
      ((sortByCountDesc Prod.snd
        (countBy Event.artist (monthEventsOf
          [{ userId := "u1", songId := "B", timestamp := ⟨2025, 2, 5, 0⟩,
             durationMs := 200000, title := "TB", artist := "YB", releaseDate := "r" },
           { userId := "u1", songId := "A", timestamp := ⟨2025, 2, 6, 0⟩,
             durationMs := 200000, title := "TA", artist := "YA", releaseDate := "r" }]
          "u1" 2025 2))).map Prod.fst).findIdx (fun x => decide (x = "YA"))) := by
  refine ⟨?_, ?_, ?_⟩
  · exact tie_break_first_seen.1 _ _ _ "B" "A"
      (by decide) (by decide) (by decide) (by decide) (by decide)
  · exact tie_break_first_seen.2.1 _ "u1" 2025 2 "B" "A"
      (by decide) (by decide) (by decide) (by decide) (by decide)
  · exact tie_break_first_seen.2.2 _ "u1" 2025 2 "YB" "YA"
      (by decide) (by decide) (by decide) (by decide) (by decide)

end MusicAnalytics
